import Mathlib

/-!
Verification of the hitsave blob transfer and storage core.

Shallow embedding of the source files
`src/api/src/extractors/with_blob.rs`, `src/api/src/persisters/s3store.rs`,
`src/api/src/persisters/eval.rs` and `src/api/src/persisters/blob.rs`.
Bytes are modelled as `Nat`, byte buffers as `List Nat`, and the poll-driven
futures as total functions over the list of chunks the transport delivers.
-/

namespace Hitsave

abbrev Byte := Nat

abbrev Chunk := List Byte

/-- Mirrors `WithBlobError` from `with_blob.rs`: `Payload`, `Deserialize`
and `UnexpectedEOF`.  The inner payload / serde errors carry no information
the control flow inspects, so they are dropped. -/
inductive WithBlobErr where
  | payloadFailure
  | deserialize
  | unexpectedEOF
deriving DecidableEq

/-- One item yielded by the actix `Payload` stream: a byte chunk, or a
transport error (`Err(PayloadError)`). -/
inductive PollItem where
  | chunk (b : Chunk)
  | transportFailure
deriving DecidableEq

/-- The mutable fields of `BTExtractMetadataFut` that the decoding loop
updates: `size_buf`, `metadata_len`, `metadata_received`, `metadata_buf`. -/
structure DecSt where
  size_buf : Chunk
  metadata_len : Option Nat
  metadata_received : Nat
  metadata_buf : Chunk
deriving DecidableEq

/-- The initial future built by `WithBlob::from_request`. -/
def initSt : DecSt := ⟨[], none, 0, []⟩

/-- Result of driving `BTExtractMetadataFut::poll` over a whole chunk list.
`ok meta initBytes rest` corresponds to `Poll::Ready(Ok(WithBlob))` where the
`BlobPayload` holds `initBytes` as its captured `init_bytes` and `rest` is the
untouched remainder of the underlying stream.  `panicked` marks a run in which
a slice index of the Rust code is out of bounds (a Rust panic). -/
inductive DecodeResult (M : Type) where
  | ok (meta : M) (initBytes : Chunk) (rest : List PollItem)
  | payloadErr
  | deserializeErr
  | unexpectedEOF
  | panicked
deriving DecidableEq

/-- `u32::from_be_bytes` on a 4-byte buffer. -/
def be32 : Chunk → Nat
  | [a, b, c, d] => ((a * 256 + b) * 256 + c) * 256 + d
  | _ => 0

/-- The loop body of `BTExtractMetadataFut::poll` (`with_blob.rs`, lines
169-263), iterated over the chunks the underlying payload yields.  `parse`
stands for `serde_json::from_slice::<M>`.  Each Rust slice expression is
guarded by the bound check under which Rust would panic:
`&chunk[..(buf_len - 4)]`, `buf[..4]`, `&chunk[4..]` in the length phase and
`&chunk[..final_bytes_len]` in the metadata phase. -/
def decodeChunks {M : Type} (parse : Chunk → Option M) : DecSt → List PollItem → DecodeResult M
  | _, [] => .unexpectedEOF
  | _, .transportFailure :: _ => .payloadErr
  | st, .chunk chunk :: rest =>
    match st.metadata_len with
    | none =>
      let bufLen := st.size_buf.length + chunk.length
      if 4 < bufLen then
        if chunk.length < bufLen - 4 then .panicked
        else
          let buf := st.size_buf ++ chunk.take (bufLen - 4)
          if buf.length < 4 then .panicked
          else
            let mlen := be32 (buf.take 4)
            if chunk.length < 4 then .panicked
            else
              let rem := chunk.drop 4
              if mlen < rem.length then
                match parse (rem.take mlen) with
                | some m => .ok m (rem.drop mlen) rest
                | none => .deserializeErr
              else
                decodeChunks parse ⟨buf, some mlen, rem.length, st.metadata_buf ++ rem⟩ rest
      else
        decodeChunks parse ⟨st.size_buf ++ chunk, none, st.metadata_received, st.metadata_buf⟩ rest
    | some mlen =>
      if mlen ≤ st.metadata_received + chunk.length then
        let finalLen := mlen - st.metadata_received
        if chunk.length < finalLen then .panicked
        else
          match parse (st.metadata_buf ++ chunk.take finalLen) with
          | some m => .ok m (chunk.drop finalLen) rest
          | none => .deserializeErr
      else
        decodeChunks parse ⟨st.size_buf, some mlen, st.metadata_received + chunk.length, st.metadata_buf ++ chunk⟩ rest

/-- Driving the freshly constructed future over a chunk list. -/
def decode {M : Type} (parse : Chunk → Option M) (items : List PollItem) : DecodeResult M :=
  decodeChunks parse initSt items

/-- A list of plain byte chunks as payload items (an error-free transport). -/
def okChunks (bs : List Chunk) : List PollItem := bs.map .chunk

/-- The identity metadata deserializer: a metadata type whose parse accepts
any byte sequence and returns it unchanged.  Instantiating `M` this way makes
decoder outcomes directly observable. -/
def parseId : Chunk → Option Chunk := fun b => some b

/-- Bytes of one payload item as seen by a consumer that concatenates the
stream (error items contribute nothing). -/
def chunkBytes : PollItem → Chunk
  | .chunk b => b
  | .transportFailure => []

/-- The full payload byte sequence a downstream consumer of `BlobPayload`
observes on a successful decode: the captured `init_bytes` replayed first,
then the delegated remainder of the stream (`BlobPayload::poll_next`). -/
def payloadBytesOf {M : Type} : DecodeResult M → Option Chunk
  | .ok _ initBytes rest => some (initBytes ++ (rest.map chunkBytes).flatten)
  | _ => none

/-- The 7 metadata bytes of the JSON object with key a and value 1. -/
def metaA : Chunk := [123, 34, 97, 34, 58, 49, 125]

/-- A well-formed envelope: 4-byte big-endian length 7, the 7 metadata
bytes, then the 3 payload bytes `X Y Z`. -/
def envA : Chunk := [0, 0, 0, 7] ++ metaA ++ [88, 89, 90]

/-- A well-formed envelope whose body ends exactly at the end of the
metadata block: length prefix 7, the 7 metadata bytes, empty payload. -/
def envEmpty : Chunk := [0, 0, 0, 7] ++ metaA

/-- Claim C1: feeding the envelope `envA` as a single chunk yields metadata
`metaA` and payload `X Y Z`, but feeding the same bytes split as a 2-byte
chunk (half the length prefix) followed by the remaining 12 bytes makes the
decoder take `rem = chunk[4..]`, silently dropping two bytes: the metadata
and the concatenated payload both differ from the single-chunk run,
refuting chunking invariance on the code as written. -/
theorem decode_chunking_dependent :
    decode parseId (okChunks [envA]) = .ok metaA [88, 89, 90] [] ∧
    decode parseId (okChunks [envA.take 2, envA.drop 2]) =
      .ok [97, 34, 58, 49, 125, 88, 89] [90] [] ∧
    payloadBytesOf (decode parseId (okChunks [envA])) ≠
      payloadBytesOf (decode parseId (okChunks [envA.take 2, envA.drop 2])) := by
  decide

/-- Claim C8: when the first chunk holds the 4-byte length prefix plus one
extra byte (5 bytes), the code extends `size_buf` with only
`buf_len - 4 = 1` byte and then evaluates `buf[..4]` on a 1-byte buffer, an
out-of-bounds slice: the poll panics instead of returning a value. -/
theorem decode_short_first_chunk_panics :
    decode parseId (okChunks [envA.take 5, envA.drop 5]) =
      (.panicked : DecodeResult Chunk) := by
  decide

/-- Claim C5: an envelope with an empty payload fed as one chunk falls into
the strict `rem.len() > metadata_len` comparison, accumulates all the
metadata without returning, and then hits end of stream: the decoder
reports `UnexpectedEOF` instead of succeeding.  The same bytes split after
the 8th byte complete the metadata in the second phase (whose comparison is
`>=`) and succeed with an empty payload, showing the two phases disagree. -/
theorem decode_empty_payload_eof :
    decode parseId (okChunks [envEmpty]) = (.unexpectedEOF : DecodeResult Chunk) ∧
    decode parseId (okChunks [envEmpty.take 8, envEmpty.drop 8]) = .ok metaA [] [] := by
  decide

/-! ## S3Store (`s3store.rs`)

The blake3 digest is abstracted as a function parameter `hashFn` over the
accumulated bytes; a `Hash` value is its 32-byte output.  The remote S3
backend is modelled as a reliable key-value store: a PUT fails exactly when
the hyper body wrapped around the scanned stream yields an error item, and a
GET fails exactly when no object exists under the key. -/

abbrev Hash := Chunk

/-- Error of one item of the scanned upload stream in `S3Store::store_blob`:
either the hash check failed (`StoreError::InvalidHash`) or the underlying
payload item was an error (`StoreError::WithBlob`). -/
inductive StreamErr where
  | invalidHash
  | withBlob (e : WithBlobErr)
deriving DecidableEq

/-- Mirrors `StoreError` from `s3store.rs`.  The `S3` variant wraps the body
error that made the SDK call fail (per the source TODO, an `InvalidHash`
emitted by the scan surfaces to the caller wrapped inside `StoreError::S3`).
Note the enum has no NotFound and no Transport variant. -/
inductive StoreErr where
  | invalidHash
  | missingPayload
  | unauthorized
  | s3 (cause : StreamErr)
  | withBlob (e : WithBlobErr)
  | sqlx
deriving DecidableEq

/-- The `scan` closure in `S3Store::store_blob` (lines 126-141): each `Ok`
chunk is fed to the running hasher and counted; when the running count is
exactly equal to `content_length as usize` the hash is finalized and compared
with the claim, and a mismatch turns the item into `Err(InvalidHash)`.
`acc` is the byte sequence the hasher has absorbed, `len` the running count. -/
def scanItems (hashFn : Chunk → Hash) (hashClaim : Hash) (clen : Nat) :
    Chunk → Nat → List (Except WithBlobErr Chunk) → List (Except StreamErr Chunk)
  | _, _, [] => []
  | acc, len, .ok b :: rest =>
    let acc2 := acc ++ b
    let len2 := len + b.length
    if len2 = clen ∧ hashFn acc2 ≠ hashClaim then
      .error .invalidHash :: scanItems hashFn hashClaim clen acc2 len2 rest
    else
      .ok b :: scanItems hashFn hashClaim clen acc2 len2 rest
  | acc, len, .error e :: rest =>
    .error (.withBlob e) :: scanItems hashFn hashClaim clen acc len rest

/-- First error item of the scanned stream, if any.  `hyper::Body::wrap_stream`
terminates the request body at the first `Err` item, which is what makes the
SDK PUT fail. -/
def firstErrOf : List (Except StreamErr Chunk) → Option StreamErr
  | [] => none
  | .ok _ :: rest => firstErrOf rest
  | .error e :: _ => some e

/-- The bytes of one payload item that reach the wrapped body (error items
carry no bytes). -/
def itemBytes : Except WithBlobErr Chunk → Chunk
  | .ok b => b
  | .error _ => []

/-- The remote object store: a list of (key, bytes) objects, at most one per
key. -/
abbrev S3Objects := List (String × Chunk)

def s3lookup (s : S3Objects) (k : String) : Option Chunk :=
  (s.find? (fun p => p.1 == k)).map (fun p => p.2)

/-- A PUT: replaces any object under the key, so identical keys leave one
object. -/
def s3put (s : S3Objects) (k : String) (b : Chunk) : S3Objects :=
  (k, b) :: s.filter (fun p => p.1 != k)

/-- Lowercase hex digit of a nibble, as produced by `blake3::Hash::to_hex`
(external crate: lowercase hexadecimal encoding of the 32 digest bytes). -/
def hexDigit (n : Nat) : Char :=
  if n < 10 then Char.ofNat (48 + n) else Char.ofNat (87 + n)

def hexByte (b : Byte) : List Char := [hexDigit (b / 16), hexDigit (b % 16)]

/-- `hash.to_hex().to_string()`: the deterministic lowercase-hex storage key. -/
def hexOfHash (h : Hash) : String := ⟨(h.map hexByte).flatten⟩

/-- `S3Store::store_blob` (lines 120-164): wraps the payload in the hashing
`scan`, then PUTs the body under key `hash_claim.to_hex()` with the declared
`content_length`.  `content_length as usize` is the two's-complement
reinterpretation of the `i64`.  If the body errors, the SDK call fails and
the error surfaces as `StoreError::S3` wrapping the stream error (source
TODO, lines 146-151); otherwise the PUT stores the transmitted bytes. -/
def storeBlob (hashFn : Chunk → Hash) (s3 : S3Objects)
    (items : List (Except WithBlobErr Chunk)) (hashClaim : Hash)
    (contentLength : Int) : Except StoreErr S3Objects :=
  let clen := (contentLength.emod (2 ^ 64)).toNat
  match firstErrOf (scanItems hashFn hashClaim clen [] 0 items) with
  | some e => .error (.s3 e)
  | none => .ok (s3put s3 (hexOfHash hashClaim) (items.map itemBytes).flatten)

/-- Outcome of `S3Store::retrieve_blob`: the body bytes, or a Rust panic. -/
inductive RetrieveResult where
  | ok (body : Chunk)
  | panicked
deriving DecidableEq

/-- `S3Store::retrieve_blob` (lines 167-178): GETs key `content_hash.to_hex()`
and calls `.unwrap()` on the SDK result, so any backend error — in
particular the NoSuchKey error returned when no object exists under the
key — is a panic, not an error return. -/
def retrieveBlob (s3 : S3Objects) (content_hash : Hash) : RetrieveResult :=
  match s3lookup s3 (hexOfHash content_hash) with
  | some b => .ok b
  | none => .panicked

/-- Error-free payload items from plain byte chunks. -/
def okItems (bs : List Chunk) : List (Except WithBlobErr Chunk) := bs.map .ok

lemma map_itemBytes_okItems (bs : List Chunk) : (okItems bs).map itemBytes = bs := by
  induction bs with
  | nil => rfl
  | cons b rest ih => simpa [okItems, itemBytes] using ih

/-- `storeBlob` unfolded, with the `let` removed. -/
lemma storeBlob_eq (hashFn : Chunk → Hash) (s3 : S3Objects)
    (items : List (Except WithBlobErr Chunk)) (hashClaim : Hash) (contentLength : Int) :
    storeBlob hashFn s3 items hashClaim contentLength =
      match firstErrOf
          (scanItems hashFn hashClaim ((contentLength.emod (2 ^ 64)).toNat) [] 0 items) with
      | some e => .error (.s3 e)
      | none => .ok (s3put s3 (hexOfHash hashClaim) (items.map itemBytes).flatten) := rfl

/-- If every length-boundary the scan can hit carries the claimed hash, the
scanned stream has no error item. -/
lemma scanItems_no_err (hashFn : Chunk → Hash) (claim : Hash) (clen : Nat) :
    ∀ (bs : List Chunk) (acc : Chunk),
      (∀ cs ds : List Chunk, bs = cs ++ ds → 1 ≤ cs.length →
        acc.length + (cs.map List.length).sum = clen →
        hashFn (acc ++ cs.flatten) = claim) →
      firstErrOf (scanItems hashFn claim clen acc acc.length (okItems bs)) = none := by
  intro bs
  induction bs with
  | nil => intro acc _; simp [okItems, scanItems, firstErrOf]
  | cons b rest ih =>
    intro acc H
    have hok : ¬ (acc.length + b.length = clen ∧ hashFn (acc ++ b) ≠ claim) := by
      rintro ⟨h1, h2⟩
      refine h2 ?_
      have := H [b] rest rfl (by simp) (by simpa using h1)
      simpa using this
    simp only [okItems, List.map_cons, scanItems, if_neg hok, firstErrOf]
    have hlen : acc.length + b.length = (acc ++ b).length := by
      simp
    rw [hlen, ← okItems]
    refine ih (acc ++ b) ?_
    intro cs ds hsplit hcs hsum
    have := H (b :: cs) ds (by simp [hsplit]) (by simp)
      (by simp at hsum ⊢; omega)
    simpa [List.append_assoc] using this

/-- If the first length boundary the scan hits carries a wrong hash, the first
error item of the scanned stream is `InvalidHash`. -/
lemma scanItems_err_at (hashFn : Chunk → Hash) (claim : Hash) (clen : Nat) :
    ∀ (bs : List Chunk) (acc : Chunk) (k : Nat), 1 ≤ k → k ≤ bs.length →
      acc.length + ((bs.take k).map List.length).sum = clen →
      (∀ j, 1 ≤ j → j < k →
        acc.length + ((bs.take j).map List.length).sum ≠ clen) →
      hashFn (acc ++ (bs.take k).flatten) ≠ claim →
      firstErrOf (scanItems hashFn claim clen acc acc.length (okItems bs))
        = some .invalidHash := by
  intro bs
  induction bs with
  | nil =>
    intro acc k hk1 hk2 _ _ _
    simp at hk2
    omega
  | cons b rest ih =>
    intro acc k hk1 hk2 hfire hbefore hmis
    by_cases hk : k = 1
    · subst hk
      have h1 : acc.length + b.length = clen := by simpa using hfire
      have h2 : hashFn (acc ++ b) ≠ claim := by simpa using hmis
      simp only [okItems, List.map_cons, scanItems, if_pos (And.intro h1 h2), firstErrOf]
    · obtain ⟨k', rfl⟩ : ∃ k', k = k' + 1 := ⟨k - 1, by omega⟩
      have hk' : 1 ≤ k' := by omega
      have hnofire : ¬ (acc.length + b.length = clen ∧ hashFn (acc ++ b) ≠ claim) := by
        rintro ⟨h1, _⟩
        exact hbefore 1 le_rfl (by omega) (by simpa using h1)
      simp only [okItems, List.map_cons, scanItems, if_neg hnofire, firstErrOf]
      have hlen : acc.length + b.length = (acc ++ b).length := by simp
      rw [hlen, ← okItems]
      refine ih (acc ++ b) k' hk' (by simpa using hk2) ?_ ?_ ?_
      · have := hfire
        simp at this ⊢
        omega
      · intro j hj1 hj2
        have := hbefore (j + 1) (by omega) (by omega)
        simp at this ⊢
        omega
      · have := hmis
        simpa [List.append_assoc] using this

/-- Claim C2 counterexample: declared `content_length = 5` but a single
6-byte chunk is transmitted.  The running count jumps from 0 to 6, never
equals 5, so the hash is never finalized: the upload succeeds even though
the recomputed hash of the transmitted bytes differs from the claim, and the
mismatched bytes are readable under the claimed key afterwards. -/
theorem storeBlob_mismatch_accepted :
    storeBlob (fun b => b) [] (okItems [[1, 2, 3, 4, 5, 6]]) [9, 9] 5
        = .ok (s3put [] (hexOfHash [9, 9]) [1, 2, 3, 4, 5, 6]) ∧
    (fun b => b) [1, 2, 3, 4, 5, 6] ≠ ([9, 9] : Hash) ∧
    s3lookup (s3put [] (hexOfHash [9, 9]) [1, 2, 3, 4, 5, 6]) (hexOfHash [9, 9])
        = some [1, 2, 3, 4, 5, 6] := by
  refine ⟨rfl, by decide, rfl⟩

/-- Claim C2 (amended): when the cumulative transmitted length equals
`content_length as usize` at some chunk boundary, and at the first such
boundary the recomputed hash differs from the claim, `store_blob` fails —
the scan emits `InvalidHash`, which surfaces wrapped as `StoreError::S3` —
and nothing is stored.  Without such a boundary no hash check happens at
all, so acceptance also depends on the declared length. -/
theorem storeBlob_boundary_mismatch_fails (hashFn : Chunk → Hash) (claim : Hash)
    (contentLength : Int) (bs : List Chunk) (s3 : S3Objects) (k : Nat)
    (hk1 : 1 ≤ k) (hk2 : k ≤ bs.length)
    (hfire : ((bs.take k).map List.length).sum = (contentLength.emod (2 ^ 64)).toNat)
    (hbefore : ∀ j, 1 ≤ j → j < k →
        ((bs.take j).map List.length).sum ≠ (contentLength.emod (2 ^ 64)).toNat)
    (hmis : hashFn ((bs.take k).flatten) ≠ claim) :
    storeBlob hashFn s3 (okItems bs) claim contentLength = .error (.s3 .invalidHash) := by
  rw [storeBlob_eq]
  have h := scanItems_err_at hashFn claim ((contentLength.emod (2 ^ 64)).toNat) bs [] k
    hk1 hk2 (by simpa using hfire) (by simpa using hbefore) (by simpa using hmis)
  simp only [List.length_nil] at h
  rw [h]

/-- Claim C2 witness: a 5-byte chunk with declared length 5 and a wrong
claimed hash is rejected with the S3-wrapped `InvalidHash`. -/
theorem storeBlob_boundary_mismatch_fails_witness :
    storeBlob (fun b => b) [] (okItems [[1, 2, 3, 4, 5]]) [7] 5
        = .error (.s3 .invalidHash) := by
  refine storeBlob_boundary_mismatch_fails (fun b => b) [7] 5 [[1, 2, 3, 4, 5]] [] 1
    le_rfl (by decide) (by decide) ?_ (by decide)
  intro j hj1 hj2
  omega

/-- Claim C9: if the cumulative chunk lengths never equal
`content_length as usize` at any chunk boundary, no hash comparison is ever
performed — the upload goes through for every claimed hash and every digest
function. -/
theorem storeBlob_no_boundary_no_check (hashFn : Chunk → Hash) (claim : Hash)
    (contentLength : Int) (bs : List Chunk) (s3 : S3Objects)
    (h : ∀ k, 1 ≤ k → k ≤ bs.length →
        ((bs.take k).map List.length).sum ≠ (contentLength.emod (2 ^ 64)).toNat) :
    storeBlob hashFn s3 (okItems bs) claim contentLength
      = .ok (s3put s3 (hexOfHash claim) bs.flatten) := by
  rw [storeBlob_eq]
  have hne := scanItems_no_err hashFn claim ((contentLength.emod (2 ^ 64)).toNat) bs [] ?_
  · simp only [List.length_nil] at hne
    rw [hne, map_itemBytes_okItems]
  · intro cs ds hsplit hcs hsum
    exfalso
    refine h cs.length hcs ?_ ?_
    · rw [hsplit]
      simp
    · rw [hsplit, List.take_left]
      simpa using hsum

/-- Claim C9 witness: a 2-byte chunk with declared length 5 is uploaded
without any hash check, whatever the claimed hash. -/
theorem storeBlob_no_boundary_no_check_witness :
    storeBlob (fun b => b) [] (okItems [[1, 2]]) [9] 5
        = .ok (s3put [] (hexOfHash [9]) [1, 2]) := by
  refine storeBlob_no_boundary_no_check (fun b => b) [9] 5 [[1, 2]] [] ?_
  intro k hk1 hk2
  have : k = 1 := by simpa using le_antisymm (by simpa using hk2) hk1
  subst this
  decide

lemma s3lookup_s3put (s : S3Objects) (k : String) (b : Chunk) :
    s3lookup (s3put s k b) k = some b := by
  simp [s3lookup, s3put, List.find?]

lemma s3put_s3put (s : S3Objects) (k : String) (b c : Chunk) :
    s3put (s3put s k b) k c = s3put s k c := by
  simp [s3put, List.filter_filter]

/-- Claim C7: an honest upload (claimed hash is the digest of the bytes,
declared length is their length) succeeds and stores the bytes under the
lowercase-hex key of the hash; downloading that hash returns exactly the
original bytes; and re-uploading the same bytes targets the same key and
leaves the store unchanged — one object. -/
theorem storeBlob_retrieve_round_trip (hashFn : Chunk → Hash) (s3 : S3Objects)
    (bs : List Chunk) (hlen : bs.flatten.length < 2 ^ 64) :
    storeBlob hashFn s3 (okItems bs) (hashFn bs.flatten) (bs.flatten.length : Int)
        = .ok (s3put s3 (hexOfHash (hashFn bs.flatten)) bs.flatten) ∧
    retrieveBlob (s3put s3 (hexOfHash (hashFn bs.flatten)) bs.flatten) (hashFn bs.flatten)
        = .ok bs.flatten ∧
    storeBlob hashFn (s3put s3 (hexOfHash (hashFn bs.flatten)) bs.flatten) (okItems bs)
        (hashFn bs.flatten) (bs.flatten.length : Int)
        = .ok (s3put s3 (hexOfHash (hashFn bs.flatten)) bs.flatten) := by
  have h0 : (0 : Int) ≤ (bs.flatten.length : Int) := Int.ofNat_nonneg _
  have h1 : (bs.flatten.length : Int) < 2 ^ 64 := by exact_mod_cast hlen
  have hclen : (((bs.flatten.length : Int)).emod (2 ^ 64)).toNat = bs.flatten.length := by
    rw [show ((bs.flatten.length : Int)).emod (2 ^ 64)
          = ((bs.flatten.length : Int)) % (2 ^ 64) from rfl,
      Int.emod_eq_of_lt h0 h1, Int.toNat_ofNat]
  have hmain : ∀ t : S3Objects,
      storeBlob hashFn t (okItems bs) (hashFn bs.flatten) (bs.flatten.length : Int)
        = .ok (s3put t (hexOfHash (hashFn bs.flatten)) bs.flatten) := by
    intro t
    rw [storeBlob_eq]
    have hne := scanItems_no_err hashFn (hashFn bs.flatten)
      (((bs.flatten.length : Int)).emod (2 ^ 64)).toNat bs [] ?_
    · simp only [List.length_nil] at hne
      rw [hne, map_itemBytes_okItems]
    · intro cs ds hsplit _ hsum
      rw [hclen] at hsum
      simp only [List.length_nil, Nat.zero_add] at hsum
      have hds : ds.flatten = [] := by
        have ha : bs.flatten.length = cs.flatten.length + ds.flatten.length := by
          rw [hsplit]; simp
        have hb : cs.flatten.length = bs.flatten.length := by
          rw [List.length_flatten, hsum]
        have hz : ds.flatten.length = 0 := by omega
        exact List.length_eq_zero.mp hz
      have hcs : cs.flatten = bs.flatten := by
        rw [hsplit, List.flatten_append, hds, List.append_nil]
      simp [hcs]
  refine ⟨hmain s3, ?_, ?_⟩
  · rw [retrieveBlob, s3lookup_s3put]
  · rw [hmain (s3put s3 (hexOfHash (hashFn bs.flatten)) bs.flatten), s3put_s3put]

/-- Claim C7 witness: uploading the bytes 1 2 3 in two chunks and
downloading the digest returns the same bytes; the second upload leaves the
single stored object unchanged. -/
theorem storeBlob_retrieve_round_trip_witness :
    storeBlob (fun b => b) [] (okItems [[1, 2], [3]]) [1, 2, 3] (3 : Int)
        = .ok (s3put [] (hexOfHash [1, 2, 3]) [1, 2, 3]) ∧
    retrieveBlob (s3put [] (hexOfHash [1, 2, 3]) [1, 2, 3]) [1, 2, 3] = .ok [1, 2, 3] ∧
    storeBlob (fun b => b) (s3put [] (hexOfHash [1, 2, 3]) [1, 2, 3]) (okItems [[1, 2], [3]])
        [1, 2, 3] (3 : Int) = .ok (s3put [] (hexOfHash [1, 2, 3]) [1, 2, 3]) := by
  exact storeBlob_retrieve_round_trip (fun b => b) [] [[1, 2], [3]] (by norm_num)

/-- Claim C6: with no object under the content hash the download does not
return a NotFound error — the `.unwrap()` in `retrieve_blob` turns the
backend error into a panic (and `StoreError` has no NotFound or Transport
variant to return); when the object exists, its bytes come back. -/
theorem retrieveBlob_missing_key_panics :
    retrieveBlob [] (List.replicate 32 0) = .panicked ∧
    retrieveBlob (s3put [] (hexOfHash (List.replicate 32 0)) [1]) (List.replicate 32 0)
        = .ok [1] := by
  decide

/-! ## Database layer (`eval.rs`, `blob.rs`)

The relational store is modelled as in-memory tables with id sequences; a
transaction is executed atomically.  `user_from_key` is the Postgres
function of that name, defined in the migrations, abstracted here as a
parameter; SQL NULL comparison semantics make an unknown key match no row. -/

/-- Mirrors `Auth` from `middlewares/auth.rs`: an opaque API key, or decoded
JWT claims (only the subject matters here). -/
inductive Auth where
  | ApiKey (key : String)
  | Jwt (sub : String)
deriving DecidableEq

/-- `Auth::api_key`. -/
def Auth.api_key : Auth → Option String
  | .ApiKey k => some k
  | .Jwt _ => none

/-- Mirrors `EvalError` from `models/eval/mod.rs`. -/
inductive EvalError where
  | Unauthorized
  | NotFound
  | Sqlx
deriving DecidableEq

/-- One row of the `blobs` table. -/
structure BlobRow where
  id : Nat
  user_id : Nat
  content_hash : String
deriving DecidableEq

/-- One row of the `evals` table; `accesses` starts at 0. -/
structure EvalRow where
  id : Nat
  user_id : Nat
  fn_key : String
  fn_hash : String
  args : Option String
  args_hash : String
  result_json : String
  is_experiment : Bool
  start_time : Int
  elapsed_process_time : Int
  blob_id : Nat
  accesses : Nat
deriving DecidableEq

/-- Mirrors the `EvalInsert` payload of `eval.rs` (JSON values and
timestamps are opaque here). -/
structure EvalInsert where
  fn_key : String
  fn_hash : String
  args : Option String
  args_hash : String
  result_json : String
  content_hash : String
  content_length : Int
  is_experiment : Bool
  start_time : Int
  elapsed_process_time : Int
deriving DecidableEq

/-- The relational store: both tables and their id sequences. -/
structure Db where
  blobs : List BlobRow
  evals : List EvalRow
  next_blob_id : Nat
  next_eval_id : Nat
deriving DecidableEq

/-- The `s` sub-select of the blob CTE: this owner's blob rows with this
content hash. -/
def blobMatches (db : Db) (uid : Nat) (h : String) : List BlobRow :=
  db.blobs.filter (fun r => r.user_id == uid && r.content_hash == h)

/-- The blob insert-or-fetch CTE shared by `EvalInsert::persist` and
`BlobInsert::persist`: `INSERT ... ON CONFLICT DO NOTHING RETURNING id`,
then `SELECT id FROM i UNION ALL SELECT id FROM s`, where `s` reads the
pre-statement snapshot.  Modelled from the spec: the migrations are not
under `src/`, and the spec says a uniqueness constraint backs the blob
dedup key, so the insert conflicts exactly when a row with the same
(owner, content_hash) exists. -/
def blobInsertOrFetch (db : Db) (uid : Nat) (h : String) : Db × List Nat :=
  match blobMatches db uid h with
  | [] =>
    (⟨db.blobs ++ [⟨db.next_blob_id, uid, h⟩], db.evals,
      db.next_blob_id + 1, db.next_eval_id⟩, [db.next_blob_id])
  | r :: rs => (db, (r :: rs).map fun x => x.id)

/-- The eval CTE of `EvalInsert::persist`.  Per the NOTE in the source
(lines 94-98) there is no unique constraint across (fn_key, fn_hash,
args_hash), so `ON CONFLICT DO NOTHING` never fires and the INSERT always
adds a row; `s` reads the pre-statement snapshot and the result set is
`i UNION ALL s`, so `fetch_one` sees the freshly inserted id first. -/
def evalInsert (db : Db) (uid : Nat) (e : EvalInsert) (blobId : Nat) : Db × List Nat :=
  let s := (db.evals.filter (fun r =>
    r.user_id == uid && r.fn_key == e.fn_key && r.fn_hash == e.fn_hash
      && r.args_hash == e.args_hash)).map fun r => r.id
  (⟨db.blobs,
    db.evals ++ [⟨db.next_eval_id, uid, e.fn_key, e.fn_hash, e.args, e.args_hash,
      e.result_json, e.is_experiment, e.start_time, e.elapsed_process_time, blobId, 0⟩],
    db.next_blob_id, db.next_eval_id + 1⟩, db.next_eval_id :: s)

/-- `EvalInsert::persist` (`eval.rs`, lines 58-139): require an API key,
run the blob insert-or-fetch followed by the eval insert in one transaction
(modelled as atomic), take the first row of each result set (`fetch_one`),
commit, and return the eval id.  A key unknown to `user_from_key` yields
SQL NULL and makes the insert fail, surfacing as an sqlx error. -/
def EvalInsert.persist (user_from_key : String → Option Nat) (auth : Option Auth)
    (db : Db) (e : EvalInsert) : Except EvalError (Db × Nat) :=
  match auth with
  | none => .error .Unauthorized
  | some a =>
    match a.api_key with
    | none => .error .Unauthorized
    | some key =>
      match user_from_key key with
      | none => .error .Sqlx
      | some uid =>
        match blobInsertOrFetch db uid e.content_hash with
        | (_, []) => .error .Sqlx
        | (db1, blobId :: _) =>
          match evalInsert db1 uid e blobId with
          | (_, []) => .error .Sqlx
          | (db2, evalId :: _) => .ok (db2, evalId)

/-- The blob id the insert-or-fetch resolves to. -/
def resolvedBlobId (db : Db) (uid : Nat) (h : String) : Nat :=
  match blobMatches db uid h with
  | [] => db.next_blob_id
  | r :: _ => r.id

/-- The blobs table after the insert-or-fetch: a row is added only when no
matching row existed. -/
def blobsAfter (db : Db) (uid : Nat) (h : String) : List BlobRow :=
  match blobMatches db uid h with
  | [] => db.blobs ++ [⟨db.next_blob_id, uid, h⟩]
  | _ :: _ => db.blobs

/-- The blob id sequence after the insert-or-fetch. -/
def nextBlobIdAfter (db : Db) (uid : Nat) (h : String) : Nat :=
  match blobMatches db uid h with
  | [] => db.next_blob_id + 1
  | _ :: _ => db.next_blob_id

/-- The eval row a `persist` call appends. -/
def mkEvalRow (e : EvalInsert) (uid evalId blobId : Nat) : EvalRow :=
  ⟨evalId, uid, e.fn_key, e.fn_hash, e.args, e.args_hash, e.result_json,
    e.is_experiment, e.start_time, e.elapsed_process_time, blobId, 0⟩

/-- Closed form of a successful `persist` call: the blob row is deduped,
the eval row is always appended with the fresh id, and that fresh id is
returned. -/
lemma persist_shape (ufk : String → Option Nat) (k : String) (uid : Nat)
    (db : Db) (e : EvalInsert) (hk : ufk k = some uid) :
    EvalInsert.persist ufk (some (.ApiKey k)) db e =
      .ok (⟨blobsAfter db uid e.content_hash,
            db.evals ++ [mkEvalRow e uid db.next_eval_id
              (resolvedBlobId db uid e.content_hash)],
            nextBlobIdAfter db uid e.content_hash,
            db.next_eval_id + 1⟩, db.next_eval_id) := by
  simp only [EvalInsert.persist, Auth.api_key, hk]
  cases hm : blobMatches db uid e.content_hash with
  | nil =>
    simp [blobInsertOrFetch, hm, evalInsert, blobsAfter, nextBlobIdAfter,
      resolvedBlobId, mkEvalRow]
  | cons r rs =>
    simp [blobInsertOrFetch, hm, evalInsert, blobsAfter, nextBlobIdAfter,
      resolvedBlobId, mkEvalRow]

/-- After the insert-or-fetch, a matching blob row always exists, and it
resolves to the same id as before. -/
lemma blobMatches_blobsAfter (db : Db) (uid : Nat) (h : String)
    (evs : List EvalRow) (ne : Nat) :
    blobMatches ⟨blobsAfter db uid h, evs, nextBlobIdAfter db uid h, ne⟩ uid h =
      match blobMatches db uid h with
      | [] => [⟨db.next_blob_id, uid, h⟩]
      | r :: rs => r :: rs := by
  have hunfold : ∀ l : List BlobRow,
      blobMatches ⟨l, evs, nextBlobIdAfter db uid h, ne⟩ uid h
        = l.filter (fun r => r.user_id == uid && r.content_hash == h) := fun _ => rfl
  cases hm : blobMatches db uid h with
  | nil =>
    rw [blobsAfter, hm, hunfold, List.filter_append,
      show db.blobs.filter (fun r => r.user_id == uid && r.content_hash == h)
        = blobMatches db uid h from rfl, hm]
    simp
  | cons r rs =>
    rw [blobsAfter, hm, hunfold,
      show db.blobs.filter (fun r => r.user_id == uid && r.content_hash == h)
        = blobMatches db uid h from rfl, hm]

/-- The id resolution is stable under the insert-or-fetch. -/
lemma resolvedBlobId_after (db : Db) (uid : Nat) (h : String)
    (evs : List EvalRow) (ne : Nat) :
    resolvedBlobId ⟨blobsAfter db uid h, evs, nextBlobIdAfter db uid h, ne⟩ uid h
      = resolvedBlobId db uid h := by
  rw [resolvedBlobId, blobMatches_blobsAfter]
  cases hm : blobMatches db uid h with
  | nil => rw [resolvedBlobId, hm]
  | cons r rs => rw [resolvedBlobId, hm]

/-- A second insert-or-fetch adds no blob row. -/
lemma blobsAfter_after (db : Db) (uid : Nat) (h : String)
    (evs : List EvalRow) (ne : Nat) :
    blobsAfter ⟨blobsAfter db uid h, evs, nextBlobIdAfter db uid h, ne⟩ uid h
      = blobsAfter db uid h := by
  rw [blobsAfter, blobMatches_blobsAfter]
  cases hm : blobMatches db uid h with
  | nil => rfl
  | cons r rs => rfl

/-- A second insert-or-fetch burns no blob id. -/
lemma nextBlobIdAfter_after (db : Db) (uid : Nat) (h : String)
    (evs : List EvalRow) (ne : Nat) :
    nextBlobIdAfter ⟨blobsAfter db uid h, evs, nextBlobIdAfter db uid h, ne⟩ uid h
      = nextBlobIdAfter db uid h := by
  rw [nextBlobIdAfter, blobMatches_blobsAfter]
  cases hm : blobMatches db uid h with
  | nil => rfl
  | cons r rs => rfl

/-- Claim C3 (amended): within one `persist` call both statements run in
one atomic transaction; the blob insert has insert-or-fetch semantics
(`blobsAfter` adds a row only when none matches, `resolvedBlobId` returns
the existing id when one does), but the eval insert appends a fresh row on
every call and returns the fresh id — so re-insertion with the same triple
duplicates the eval row rather than returning the existing one. -/
theorem evalInsert_persist_shape (ufk : String → Option Nat) (k : String) (uid : Nat)
    (db : Db) (e : EvalInsert) (hk : ufk k = some uid) :
    EvalInsert.persist ufk (some (.ApiKey k)) db e =
      .ok (⟨blobsAfter db uid e.content_hash,
            db.evals ++ [mkEvalRow e uid db.next_eval_id
              (resolvedBlobId db uid e.content_hash)],
            nextBlobIdAfter db uid e.content_hash,
            db.next_eval_id + 1⟩, db.next_eval_id) :=
  persist_shape ufk k uid db e hk

/-- The test key resolver: only the key k0 is known, owner id 1. -/
def ufk0 : String → Option Nat := fun k => if k = "k0" then some 1 else none

/-- A concrete eval insert payload. -/
def ins0 : EvalInsert := ⟨"f", "h", none, "a", "r", "c", 3, false, 0, 0⟩

/-- The empty store. -/
def db0 : Db := ⟨[], [], 0, 0⟩

/-- The eval row created by the first insert of `ins0`. -/
def row0 : EvalRow := ⟨0, 1, "f", "h", none, "a", "r", false, 0, 0, 0, 0⟩

/-- The eval row created by the second, identical insert of `ins0`. -/
def row1 : EvalRow := ⟨1, 1, "f", "h", none, "a", "r", false, 0, 0, 0, 0⟩

/-- The store after one insert of `ins0`. -/
def db1c : Db := ⟨[⟨0, 1, "c"⟩], [row0], 1, 1⟩

/-- The store after two identical inserts of `ins0`. -/
def db2c : Db := ⟨[⟨0, 1, "c"⟩], [row0, row1], 1, 2⟩

/-- Claim C3 witness: the closed form of `persist` at the concrete inputs. -/
theorem evalInsert_persist_shape_witness :
    ufk0 "k0" = some 1 ∧
    EvalInsert.persist ufk0 (some (.ApiKey "k0")) db0 ins0 =
      .ok (⟨blobsAfter db0 1 ins0.content_hash,
            db0.evals ++ [mkEvalRow ins0 1 db0.next_eval_id
              (resolvedBlobId db0 1 ins0.content_hash)],
            nextBlobIdAfter db0 1 ins0.content_hash,
            db0.next_eval_id + 1⟩, db0.next_eval_id) :=
  ⟨rfl, evalInsert_persist_shape ufk0 "k0" 1 db0 ins0 rfl⟩

/-- Claim C3 counterexample: two `persist` calls with the identical key
triple both succeed, the second returns a fresh id 1 instead of the
existing id 0, and afterwards two eval rows carry the same
(owner, fn_key, fn_hash, args_hash) — the triple does not identify at most
one eval row. -/
theorem persist_duplicates_eval_rows :
    EvalInsert.persist ufk0 (some (.ApiKey "k0")) db0 ins0 = .ok (db1c, 0) ∧
    EvalInsert.persist ufk0 (some (.ApiKey "k0")) db1c ins0 = .ok (db2c, 1) ∧
    (db2c.evals.filter (fun r =>
      r.user_id == 1 && r.fn_key == "f" && r.fn_hash == "h"
        && r.args_hash == "a")).length = 2 ∧
    (1 : Nat) ≠ 0 := by
  refine ⟨rfl, rfl, rfl, by decide⟩

/-- Claim C4 (amended): serializing two identical concurrent
`DedupTransaction`s (each is one atomic transaction), both calls succeed
and their eval rows reference the same resolved blob id, but the returned
eval ids are distinct — each call creates its own eval row. -/
theorem persist_twice_same_blob_distinct_eval (ufk : String → Option Nat)
    (k : String) (uid : Nat) (db : Db) (e : EvalInsert) (hk : ufk k = some uid) :
    ∃ db1 db2 : Db,
      EvalInsert.persist ufk (some (.ApiKey k)) db e = .ok (db1, db.next_eval_id) ∧
      EvalInsert.persist ufk (some (.ApiKey k)) db1 e = .ok (db2, db.next_eval_id + 1) ∧
      db.next_eval_id ≠ db.next_eval_id + 1 ∧
      db2.evals = db.evals ++
        [mkEvalRow e uid db.next_eval_id (resolvedBlobId db uid e.content_hash),
         mkEvalRow e uid (db.next_eval_id + 1) (resolvedBlobId db uid e.content_hash)] := by
  have h1 := persist_shape ufk k uid db e hk
  have h2 := persist_shape ufk k uid
    ⟨blobsAfter db uid e.content_hash,
     db.evals ++ [mkEvalRow e uid db.next_eval_id (resolvedBlobId db uid e.content_hash)],
     nextBlobIdAfter db uid e.content_hash, db.next_eval_id + 1⟩ e hk
  refine ⟨_, _, h1, h2, by omega, ?_⟩
  simp only [resolvedBlobId_after]
  simp [List.append_assoc]

/-- Claim C4 witness: the amended two-call statement at the concrete
inputs. -/
theorem persist_twice_same_blob_distinct_eval_witness :
    ufk0 "k0" = some 1 ∧
    (∃ db1 db2 : Db,
      EvalInsert.persist ufk0 (some (.ApiKey "k0")) db0 ins0 = .ok (db1, db0.next_eval_id) ∧
      EvalInsert.persist ufk0 (some (.ApiKey "k0")) db1 ins0
        = .ok (db2, db0.next_eval_id + 1) ∧
      db0.next_eval_id ≠ db0.next_eval_id + 1 ∧
      db2.evals = db0.evals ++
        [mkEvalRow ins0 1 db0.next_eval_id (resolvedBlobId db0 1 ins0.content_hash),
         mkEvalRow ins0 1 (db0.next_eval_id + 1) (resolvedBlobId db0 1 ins0.content_hash)]) :=
  ⟨rfl, persist_twice_same_blob_distinct_eval ufk0 "k0" 1 db0 ins0 rfl⟩

/-- Claim C4 counterexample: the serialized executions of two identical
concurrent uploads both succeed and both eval rows reference blob id 0,
but the calls return eval ids 0 and 1 — not the same eval id, and two eval
rows result instead of one. -/
theorem persist_concurrent_distinct_ids :
    EvalInsert.persist ufk0 (some (.ApiKey "k0")) db0 ins0 = .ok (db1c, 0) ∧
    EvalInsert.persist ufk0 (some (.ApiKey "k0")) db1c ins0 = .ok (db2c, 1) ∧
    db2c.evals.map (fun r => r.blob_id) = [0, 0] ∧
    ¬ (0 : Nat) = 1 := by
  refine ⟨rfl, rfl, rfl, by decide⟩

/-! ## Blob fetch queries (`blob.rs`) -/

/-- Mirrors `BlobError` from `blob.rs`. -/
inductive BlobError where
  | Unauthorized
  | NotFound
  | InvalidHash
  | StoreError
  | Sqlx
deriving DecidableEq

/-- Value of one hexadecimal digit, both cases accepted. -/
def hexVal (c : Char) : Option Nat :=
  if 48 ≤ c.toNat ∧ c.toNat ≤ 57 then some (c.toNat - 48)
  else if 97 ≤ c.toNat ∧ c.toNat ≤ 102 then some (c.toNat - 87)
  else if 65 ≤ c.toNat ∧ c.toNat ≤ 70 then some (c.toNat - 55)
  else none

/-- Hex digit pairs decoded to bytes; an odd tail is an error. -/
def hexPairs : List Char → Option (List Byte)
  | [] => some []
  | [_] => none
  | hi :: lo :: rest => do
    let h ← hexVal hi
    let l ← hexVal lo
    let r ← hexPairs rest
    pure ((h * 16 + l) :: r)

/-- Models `blake3::Hash::from_hex` (external crate): exactly 64 hex
characters decode to the 32 digest bytes, anything else is a `HexError`. -/
def hashFromHex (s : String) : Option Hash :=
  if s.length = 64 then hexPairs s.data else none

/-- The count query both blob fetches run:
`SELECT count(id) FROM blobs WHERE content_hash = $1 AND user_id = user_from_key($2)`.
With SQL NULL comparison semantics an unknown key matches no row. -/
def blobCount (ufk : String → Option Nat) (db : Db) (key h : String) : Nat :=
  (db.blobs.filter (fun r =>
    r.content_hash == h &&
      match ufk key with
      | some u => r.user_id == u
      | none => false)).length

/-- Outcome of the GET blob fetch: a body, a `BlobError`, or the panic the
inner `retrieve_blob` unwrap can raise. -/
inductive GetBlobResult where
  | ok (body : Chunk)
  | err (e : BlobError)
  | panicked
deriving DecidableEq

/-- `Query for Path<BlobParams>::fetch` (GET, `blob.rs` lines 74-112):
API key required, hash must parse, then the count check — a count other
than exactly 1 maps to `Unauthorized` — and finally the S3 download. -/
def getBlobFetch (ufk : String → Option Nat) (auth : Option Auth) (db : Db)
    (s3 : S3Objects) (content_hash : String) : GetBlobResult :=
  match auth with
  | none => .err .Unauthorized
  | some a =>
    match a.api_key with
    | none => .err .Unauthorized
    | some key =>
      match hashFromHex content_hash with
      | none => .err .InvalidHash
      | some hsh =>
        if blobCount ufk db key content_hash ≠ 1 then .err .Unauthorized
        else
          match retrieveBlob s3 hsh with
          | .ok b => .ok b
          | .panicked => .panicked

/-- `Query for Path<BlobParamsHead>::fetch` (HEAD, `blob.rs` lines
115-149): the same checks, except that a count other than exactly 1 maps
to `NotFound`, and S3 is never contacted. -/
def headBlobFetch (ufk : String → Option Nat) (auth : Option Auth) (db : Db)
    (content_hash : String) : Except BlobError Unit :=
  match auth with
  | none => .error .Unauthorized
  | some a =>
    match a.api_key with
    | none => .error .Unauthorized
    | some key =>
      match hashFromHex content_hash with
      | none => .error .InvalidHash
      | some _ =>
        if blobCount ufk db key content_hash ≠ 1 then .error .NotFound
        else .ok ()

/-- Claim C10: for a well-formed content hash with no blob row for the
requesting owner, the GET fetch fails `Unauthorized` while the HEAD fetch
fails `NotFound`: the same missing-row condition maps to two different
error classes. -/
theorem getBlob_vs_headBlob_missing_row (ufk : String → Option Nat) (k : String)
    (db : Db) (s3 : S3Objects) (h : String) (hv : Hash)
    (hhex : hashFromHex h = some hv)
    (hcount : blobCount ufk db k h = 0) :
    getBlobFetch ufk (some (.ApiKey k)) db s3 h = .err .Unauthorized ∧
    headBlobFetch ufk (some (.ApiKey k)) db h = .error .NotFound := by
  constructor
  · simp [getBlobFetch, Auth.api_key, hhex, hcount]
  · simp [headBlobFetch, Auth.api_key, hhex, hcount]

/-- A 64-character all-zero hex digest string. -/
def hexZeros : String :=
  "0000000000000000000000000000000000000000000000000000000000000000"

/-- Claim C10 witness: the two fetches at a concrete valid hash and an
empty blobs table. -/
theorem getBlob_vs_headBlob_missing_row_witness :
    hashFromHex hexZeros = some (List.replicate 32 0) ∧
    blobCount ufk0 db0 "k0" hexZeros = 0 ∧
    (getBlobFetch ufk0 (some (.ApiKey "k0")) db0 [] hexZeros = .err .Unauthorized ∧
     headBlobFetch ufk0 (some (.ApiKey "k0")) db0 hexZeros = .error .NotFound) :=
  ⟨by decide, rfl,
    getBlob_vs_headBlob_missing_row ufk0 "k0" db0 [] hexZeros (List.replicate 32 0)
      (by decide) rfl⟩

end Hitsave

